/-
Verification of the concurrent download subsystem of the wall-a-bunga
wallpaper browser (src/download_manager.rs, plus the preview-cancellation
handlers in src/gui.rs).

The Rust code is shallowly embedded:

* `DownloadManager` (src/download_manager.rs, lines 13-75) keeps its
  downloads in an `indexmap::IndexMap<String, ImageDownload>`.  The map is
  embedded as an association list `List (String × ImageDownload)` in index
  order.  `IndexMap::insert` overwrites the value of an existing key in
  place (keeping its position) and otherwise appends at the back;
  `IndexMap::remove` is `swap_remove`: it swaps the removed entry with the
  last entry of the map and pops it, so it does NOT preserve order.

* The per-download transfer state machine (`ImageDownload::stream`,
  lines 126-206) is a `futures::stream::unfold` over `DownloadState`.
  Its interactions with the outside world (the HTTP response, the file
  system) are embedded as an environment trace: one `StartOutcome`
  answering `reqwest::get` / `content_length` / `File::create`, and one
  `ChunkOutcome` per `response.chunk()` poll, also answering the
  corresponding `file.write` and `tokio::fs::remove_file` calls.
  Byte counts are `Nat`; the `f32` percentage arithmetic is modelled
  exactly over `ℚ`.
-/
import Mathlib

set_option autoImplicit false

namespace Wallabunga

/-- Embedding of `struct ImageDownload` (src/download_manager.rs, lines 79-86):
url, id, and save path of one queued download.  `PathBuf` is embedded as a
string. -/
structure ImageDownload where
  url : String
  id : String
  save_path : String
deriving DecidableEq, Repr

/-- Embedding of `struct DownloadManager` (src/download_manager.rs, lines
13-18).  The `IndexMap` field is an association list in index order. -/
structure DownloadManager where
  downloads : List (String × ImageDownload)
  finished_downloads : Nat
  concurrent_downloads : Nat
deriving DecidableEq, Repr

/-- `Default for DownloadManager` (src/download_manager.rs, lines 20-28):
empty map, 5 concurrent downloads, 0 finished. -/
def DownloadManager.default : DownloadManager :=
  { downloads := [], finished_downloads := 0, concurrent_downloads := 5 }

/-- `IndexMap::insert`: if the key is present, replace its value in place
(the entry keeps its index); otherwise append the new entry at the back. -/
def insertIndexMap (k : String) (v : ImageDownload) :
    List (String × ImageDownload) → List (String × ImageDownload)
  | [] => [(k, v)]
  | p :: rest => if p.1 = k then (k, v) :: rest else p :: insertIndexMap k v rest

/-- Index of the entry with key `k`, if present. -/
def keyIdx (k : String) : List (String × ImageDownload) → Option Nat
  | [] => none
  | p :: rest => if p.1 = k then some 0 else (keyIdx k rest).map (· + 1)

/-- `IndexMap::remove`, which is `swap_remove`: the removed entry is
replaced by the LAST entry of the map (which is popped), so removal does
not preserve the order of the remaining entries. -/
def swapRemove (k : String) (l : List (String × ImageDownload)) :
    List (String × ImageDownload) :=
  match keyIdx k l with
  | none => l
  | some i =>
    match l.getLast? with
    | none => l
    | some lastP => (l.dropLast).set i lastP

/-- `DownloadManager::queue_download` (src/download_manager.rs, lines
31-41): inserts `(id, ImageDownload { url, id, save_path })` into the map. -/
def DownloadManager.queue_download (m : DownloadManager)
    (url id save_path : String) : DownloadManager :=
  { m with downloads := insertIndexMap id ⟨url, id, save_path⟩ m.downloads }

/-- `DownloadManager::remove_download` (src/download_manager.rs, lines
43-46): removes `id` from the map (swap-remove) and unconditionally
increments `finished_downloads`. -/
def DownloadManager.remove_download (m : DownloadManager) (id : String) :
    DownloadManager :=
  { m with downloads := swapRemove id m.downloads,
           finished_downloads := m.finished_downloads + 1 }

/-- `DownloadManager::get_subscriptions` (src/download_manager.rs, lines
48-54): the first `concurrent_downloads` entries of the map, in map order.
The `iced::Subscription` wrapper is dropped; the recipe values themselves
are returned. -/
def DownloadManager.get_subscriptions (m : DownloadManager) :
    List ImageDownload :=
  (m.downloads.take m.concurrent_downloads).map Prod.snd

/-- `DownloadManager::set_concurrent_downloads` (src/download_manager.rs,
lines 72-74): stores the new limit with no validation. -/
def DownloadManager.set_concurrent_downloads (m : DownloadManager)
    (n : Nat) : DownloadManager :=
  { m with concurrent_downloads := n }

/-- One mutating ledger call, for quantifying over reachable states. -/
inductive LedgerOp where
  | queue (url id save_path : String)
  | remove (id : String)
deriving DecidableEq, Repr

/-- Apply one ledger call. -/
def applyOp (m : DownloadManager) : LedgerOp → DownloadManager
  | .queue url id save_path => m.queue_download url id save_path
  | .remove id => m.remove_download id

/-- Apply a sequence of ledger calls. -/
def applyOps (m : DownloadManager) (ops : List LedgerOp) : DownloadManager :=
  ops.foldl applyOp m

/-- Spec-side removal, following the spec's words that "insertion order is
preserved": removal deletes the entry and keeps all other entries in
order.  Used only to compare the implementation against the spec's
insertion-order claim. -/
def specApplyOp (l : List (String × ImageDownload)) :
    LedgerOp → List (String × ImageDownload)
  | .queue url id save_path => insertIndexMap id ⟨url, id, save_path⟩ l
  | .remove id => l.filter (fun p => !(p.1 == id))

/-- The ledger contents a given call sequence produces under the spec's
order-preserving reading: the surviving entries in insertion order. -/
def insertionOrderLedger (ops : List LedgerOp) :
    List (String × ImageDownload) :=
  ops.foldl specApplyOp []

/-- First stored value for key `k` in an association list. -/
def getEntry (k : String) : List (String × ImageDownload) → Option ImageDownload
  | [] => none
  | p :: rest => if p.1 = k then some p.2 else getEntry k rest

/- Basic lemmas about the ledger operations. -/

theorem keyIdx_eq_none (k : String) (l : List (String × ImageDownload))
    (h : k ∉ l.map Prod.fst) : keyIdx k l = none := by
  induction l with
  | nil => rfl
  | cons p rest ih =>
    simp only [List.map_cons, List.mem_cons] at h
    push_neg at h
    have hne : ¬ p.1 = k := fun hpk => h.1 hpk.symm
    simp [keyIdx, hne, ih h.2]

theorem swapRemove_of_absent (k : String) (l : List (String × ImageDownload))
    (h : k ∉ l.map Prod.fst) : swapRemove k l = l := by
  unfold swapRemove
  rw [keyIdx_eq_none k l h]

theorem insertIndexMap_keys (k : String) (v : ImageDownload)
    (l : List (String × ImageDownload)) (h : k ∈ l.map Prod.fst) :
    (insertIndexMap k v l).map Prod.fst = l.map Prod.fst := by
  induction l with
  | nil => simp at h
  | cons p rest ih =>
    by_cases hpk : p.1 = k
    · simp [insertIndexMap, hpk]
    · simp only [List.map_cons, List.mem_cons] at h
      rcases h with h | h
      · exact absurd h.symm hpk
      · simp [insertIndexMap, hpk, ih h]

theorem getEntry_insertIndexMap (k : String) (v : ImageDownload)
    (l : List (String × ImageDownload)) :
    getEntry k (insertIndexMap k v l) = some v := by
  induction l with
  | nil => simp [insertIndexMap, getEntry]
  | cons p rest ih =>
    by_cases hpk : p.1 = k
    · simp [insertIndexMap, hpk, getEntry]
    · simp [insertIndexMap, hpk, getEntry, ih]

theorem applyOp_concurrent (m : DownloadManager) (op : LedgerOp) :
    (applyOp m op).concurrent_downloads = m.concurrent_downloads := by
  cases op <;> rfl

theorem applyOps_concurrent (m : DownloadManager) (ops : List LedgerOp) :
    (applyOps m ops).concurrent_downloads = m.concurrent_downloads := by
  induction ops generalizing m with
  | nil => rfl
  | cons op rest ih =>
    show (applyOps (applyOp m op) rest).concurrent_downloads = _
    rw [ih, applyOp_concurrent]

/- Embedding of the transfer state machine `ImageDownload::stream`
(src/download_manager.rs, lines 126-206). -/

/-- Embedding of `enum DownloadStatus` (src/download_manager.rs, lines
106-111), the events the stream emits.  The `f32` percentage is modelled
exactly as a rational. -/
inductive DownloadStatus where
  | Progress (id : String) (percentage : ℚ)
  | Failed (id : String)
  | Finished (id : String)
deriving DecidableEq, Repr

/-- Environment answer for the `Started` arm (lines 135-162): the result
of `reqwest::get(&url)`, of `response.content_length()`, and of
`File::create(&save_path)`. -/
inductive StartOutcome where
  /-- `reqwest::get` returned `Err(_)` (line 161). -/
  | netErr
  /-- the response carried no `content_length` (lines 156-159). -/
  | noContentLength
  /-- `content_length` was present but `File::create` failed (lines 153-155). -/
  | createFail
  /-- `content_length = total` and the file was created (lines 141-152). -/
  | ok (total : Nat)
deriving DecidableEq, Repr

/-- Environment answer for one `Downloading` poll (lines 164-198): the
result of `response.chunk()`, and — when a chunk arrives — of
`file.write(&chunk)` and, on write failure, of
`tokio::fs::remove_file(&save_path)`. -/
inductive ChunkOutcome where
  /-- `chunk()` returned `Ok(Some(chunk))` of length `len`; `writeOk` is
  whether `file.write` succeeded, `deleteOk` whether the `remove_file`
  attempted on write failure succeeded (irrelevant when `writeOk`). -/
  | got (len : Nat) (writeOk : Bool) (deleteOk : Bool)
  /-- `chunk()` returned `Ok(None)`: the body is exhausted (line 196). -/
  | done
  /-- `chunk()` returned `Err(_)` (line 197). -/
  | readErr
deriving DecidableEq, Repr

/-- One full environment trace for a run of the stream. -/
structure TransferEnv where
  start : StartOutcome
  chunks : List ChunkOutcome
deriving DecidableEq, Repr

/-- State of the destination file at `save_path`: absent, or present
holding `bytes` written bytes. -/
inductive FileState where
  | absent
  | present (bytes : Nat)
deriving DecidableEq, Repr

/-- Observable outcome of driving the stream against an environment trace:
the emitted events in order, the final state of the destination file,
whether the `.expect("Failed to delete file")` on line 192 panicked
(aborting the process), and whether the trace ran out before the stream
reached its end (`blocked` marks an incomplete observation, not a
behaviour of the code). -/
structure RunResult where
  events : List DownloadStatus
  file : FileState
  panicked : Bool
  blocked : Bool
deriving DecidableEq, Repr

/-- The percentage computed on line 175:
`(downloaded as f32 / total as f32) * 100.0`, in exact arithmetic. -/
def percent (downloaded total : Nat) : ℚ :=
  ((downloaded : ℚ) / (total : ℚ)) * 100

/-- The `Downloading` arm of the unfold (lines 164-198), iterated over the
remaining environment trace.  `downloaded` and `fbytes` are the
`downloaded` counter and the bytes already written to the file.  Each
match arm mirrors one arm of the source:
`Ok(Some(chunk))` with a successful write emits `Progress` and stays in
`Downloading`; a failed write deletes the file (panicking if the deletion
fails, before any event is produced) and emits `Failed`; `Ok(None)` emits
`Finished`; `Err(_)` emits `Failed` and leaves the file alone.  Every
terminal event moves to `Completed`, whose arm (lines 199-202) returns
`None`, so nothing follows a terminal event. -/
def runDownloading (id : String) (total : Nat) :
    Nat → Nat → List ChunkOutcome → RunResult
  | _, fbytes, [] =>
    { events := [], file := .present fbytes, panicked := false, blocked := true }
  | downloaded, fbytes, .got len writeOk deleteOk :: rest =>
    match writeOk, deleteOk with
    | true, _ =>
      let r := runDownloading id total (downloaded + len) (fbytes + len) rest
      { events := .Progress id (percent (downloaded + len) total) :: r.events,
        file := r.file, panicked := r.panicked, blocked := r.blocked }
    | false, true =>
      { events := [.Failed id], file := .absent, panicked := false, blocked := false }
    | false, false =>
      { events := [], file := .present fbytes, panicked := true, blocked := false }
  | _, fbytes, .done :: _ =>
    { events := [.Finished id], file := .present fbytes, panicked := false, blocked := false }
  | _, fbytes, .readErr :: _ =>
    { events := [.Failed id], file := .present fbytes, panicked := false, blocked := false }

/-- The whole stream of `ImageDownload` (lines 126-206), starting in
`DownloadState::Started` with the recipe's url, id and save path.  The
three failure arms of `Started` emit `Failed(id)` and move to `Completed`;
the success arm creates (truncates) the destination file, emits
`Progress(id, 0.0)` and enters `Downloading`.  The destination file is
assumed absent before the run. -/
def ImageDownload.runStream (d : ImageDownload) (env : TransferEnv) :
    RunResult :=
  match env.start with
  | .netErr =>
    { events := [.Failed d.id], file := .absent, panicked := false, blocked := false }
  | .noContentLength =>
    { events := [.Failed d.id], file := .absent, panicked := false, blocked := false }
  | .createFail =>
    { events := [.Failed d.id], file := .absent, panicked := false, blocked := false }
  | .ok total =>
    let r := runDownloading d.id total 0 0 env.chunks
    { events := .Progress d.id 0 :: r.events,
      file := r.file, panicked := r.panicked, blocked := r.blocked }

/-- Terminal events: `Failed` and `Finished`. -/
def isTerminal : DownloadStatus → Bool
  | .Progress _ _ => false
  | .Failed _ => true
  | .Finished _ => true

/-- Concrete call sequence exhibiting the order-breaking removal: queue
`a`, `b`, `c`, then remove `a`.  Swap-removal moves `c` into slot 0, so
the map order becomes `[c, b]` while the insertion order of the surviving
entries is `[b, c]`. -/
def c1ops : List LedgerOp :=
  [.queue "u1" "a" "p1", .queue "u2" "b" "p2", .queue "u3" "c" "p3", .remove "a"]

/-- Key lemma for the transfer stream: a run of the `Downloading` loop
whose environment trace reaches the stream's end without panicking emits
exactly one terminal event, as its last event. -/
theorem runDownloading_terminal (id : String) (total : Nat) :
    ∀ (chunks : List ChunkOutcome) (downloaded fbytes : Nat),
    (runDownloading id total downloaded fbytes chunks).blocked = false →
    (runDownloading id total downloaded fbytes chunks).panicked = false →
    ∃ t, (t = DownloadStatus.Failed id ∨ t = DownloadStatus.Finished id) ∧
      (runDownloading id total downloaded fbytes chunks).events.filter isTerminal = [t] ∧
      (runDownloading id total downloaded fbytes chunks).events.getLast? = some t := by
  intro chunks
  induction chunks with
  | nil => intro downloaded fbytes hb _; simp [runDownloading] at hb
  | cons o rest ih =>
    intro downloaded fbytes hb hp
    cases o with
    | got len writeOk deleteOk =>
      cases writeOk with
      | true =>
        simp only [runDownloading] at hb hp ⊢
        obtain ⟨t, ht, hfilter, hlast⟩ := ih (downloaded + len) (fbytes + len) hb hp
        refine ⟨t, ht, ?_, ?_⟩
        · simp [List.filter, isTerminal, hfilter]
        · rcases hc : (runDownloading id total (downloaded + len) (fbytes + len) rest).events
            with _ | ⟨e, es⟩
          · rw [hc] at hlast; simp at hlast
          · rw [hc] at hlast
            rw [List.getLast?_cons_cons]
            exact hlast
      | false =>
        cases deleteOk with
        | true =>
          exact ⟨DownloadStatus.Failed id, Or.inl rfl,
            by simp [runDownloading, isTerminal], by simp [runDownloading]⟩
        | false => simp [runDownloading] at hp
    | done =>
      exact ⟨DownloadStatus.Finished id, Or.inr rfl,
        by simp [runDownloading, isTerminal], by simp [runDownloading]⟩
    | readErr =>
      exact ⟨DownloadStatus.Failed id, Or.inl rfl,
        by simp [runDownloading, isTerminal], by simp [runDownloading]⟩

/-- C1, counterexample.  The claim says `get_subscriptions` returns the
first `n` entries "in the exact insertion order of the Ledger" for every
state reachable by `queue_download`/`remove_download` calls.  After
queueing `a`, `b`, `c` and removing `a`, `IndexMap::remove` (a
swap-remove) leaves the map in order `[c, b]`, so with limit 2 the
subscriptions are `[c, b]` while the insertion order of the surviving
entries is `[b, c]`: the claimed ordering is violated. -/
theorem claim1_counterexample :
    ¬ (((applyOps DownloadManager.default c1ops).set_concurrent_downloads 2).get_subscriptions
      = ((insertionOrderLedger c1ops).map Prod.snd).take 2) := by
  decide

/-- C1, amended.  For every concurrency limit `n ≥ 1` and every reachable
manager state, `get_subscriptions` returns at most `n` entries — exactly
`min n (number queued)` of them, so fewer than `n` only when the ledger
holds fewer than `n` — and they are the first `n` entries of the ledger's
CURRENT internal order (which coincides with insertion order only until a
removal occurs, since removal swaps the last entry into the freed slot). -/
theorem claim1_bounded_take (ops : List LedgerOp) (n : Nat) (_h : 1 ≤ n) :
    (((applyOps DownloadManager.default ops).set_concurrent_downloads n).get_subscriptions).length
      = min n (applyOps DownloadManager.default ops).downloads.length ∧
    ((applyOps DownloadManager.default ops).set_concurrent_downloads n).get_subscriptions
      = ((applyOps DownloadManager.default ops).downloads.map Prod.snd).take n ∧
    ((((applyOps DownloadManager.default ops).set_concurrent_downloads n).get_subscriptions).length < n
      → (applyOps DownloadManager.default ops).downloads.length < n) := by
  refine ⟨?_, ?_, ?_⟩
  · simp [DownloadManager.get_subscriptions, DownloadManager.set_concurrent_downloads,
      List.length_take]
  · simp [DownloadManager.get_subscriptions, DownloadManager.set_concurrent_downloads,
      List.map_take]
  · intro hlt
    simp [DownloadManager.get_subscriptions, DownloadManager.set_concurrent_downloads,
      List.length_take] at hlt
    omega

/-- Witness for the amended C1 at the concrete trace `c1ops` and limit 2. -/
theorem claim1_bounded_take_witness :
    1 ≤ 2 ∧
    ((((applyOps DownloadManager.default c1ops).set_concurrent_downloads 2).get_subscriptions).length
      = min 2 (applyOps DownloadManager.default c1ops).downloads.length ∧
    ((applyOps DownloadManager.default c1ops).set_concurrent_downloads 2).get_subscriptions
      = ((applyOps DownloadManager.default c1ops).downloads.map Prod.snd).take 2 ∧
    ((((applyOps DownloadManager.default c1ops).set_concurrent_downloads 2).get_subscriptions).length < 2
      → (applyOps DownloadManager.default c1ops).downloads.length < 2)) :=
  ⟨by decide, claim1_bounded_take c1ops 2 (by decide)⟩

/-- C2, counterexample.  The claim says every run of the transfer stream
emits exactly one terminal event.  A run whose chunk write fails and whose
subsequent file deletion also fails hits the
`.expect("Failed to delete file")` on line 192: the process aborts, the
run is not blocked, and the emitted events (here only the initial
`Progress(id, 0.0)`) contain no terminal event at all. -/
theorem claim2_counterexample :
    ((ImageDownload.runStream ⟨"u", "i", "p"⟩
        ⟨.ok 10, [.got 5 false false]⟩).events.filter isTerminal = []) ∧
    (ImageDownload.runStream ⟨"u", "i", "p"⟩
        ⟨.ok 10, [.got 5 false false]⟩).panicked = true ∧
    (ImageDownload.runStream ⟨"u", "i", "p"⟩
        ⟨.ok 10, [.got 5 false false]⟩).blocked = false := by
  decide

/-- C2, amended.  Every run of one transfer stream whose environment trace
drives it to the stream's end (not blocked) without hitting the
delete-failure panic emits exactly one terminal event — `Failed(id)` or
`Finished(id)` — and that terminal event is the last event of the
sequence; after it the machine is in `Completed`, whose arm returns
`None`, so nothing further is emitted. -/
theorem claim2_terminal_event (d : ImageDownload) (env : TransferEnv)
    (hb : (d.runStream env).blocked = false)
    (hp : (d.runStream env).panicked = false) :
    ∃ t, (t = DownloadStatus.Failed d.id ∨ t = DownloadStatus.Finished d.id) ∧
      (d.runStream env).events.filter isTerminal = [t] ∧
      (d.runStream env).events.getLast? = some t := by
  cases env with
  | mk start chunks =>
    cases start with
    | netErr =>
      exact ⟨DownloadStatus.Failed d.id, Or.inl rfl,
        by simp [ImageDownload.runStream, isTerminal], by simp [ImageDownload.runStream]⟩
    | noContentLength =>
      exact ⟨DownloadStatus.Failed d.id, Or.inl rfl,
        by simp [ImageDownload.runStream, isTerminal], by simp [ImageDownload.runStream]⟩
    | createFail =>
      exact ⟨DownloadStatus.Failed d.id, Or.inl rfl,
        by simp [ImageDownload.runStream, isTerminal], by simp [ImageDownload.runStream]⟩
    | ok total =>
      simp only [ImageDownload.runStream] at hb hp ⊢
      obtain ⟨t, ht, hfilter, hlast⟩ := runDownloading_terminal d.id total chunks 0 0 hb hp
      refine ⟨t, ht, ?_, ?_⟩
      · simp [List.filter, isTerminal, hfilter]
      · rcases hc : (runDownloading d.id total 0 0 chunks).events with _ | ⟨e, es⟩
        · rw [hc] at hlast; simp at hlast
        · rw [hc] at hlast
          rw [List.getLast?_cons_cons]
          exact hlast

/-- Witness for the amended C2: a complete, non-panicking run (one chunk,
then end of body) emits `Finished` as its unique terminal, last event. -/
theorem claim2_terminal_event_witness :
    ((ImageDownload.runStream ⟨"u", "i", "p"⟩
        ⟨.ok 10, [.got 4 true true, .done]⟩).blocked = false) ∧
    ((ImageDownload.runStream ⟨"u", "i", "p"⟩
        ⟨.ok 10, [.got 4 true true, .done]⟩).panicked = false) ∧
    (∃ t, (t = DownloadStatus.Failed (ImageDownload.mk "u" "i" "p").id
          ∨ t = DownloadStatus.Finished (ImageDownload.mk "u" "i" "p").id) ∧
      ((ImageDownload.runStream ⟨"u", "i", "p"⟩
          ⟨.ok 10, [.got 4 true true, .done]⟩).events.filter isTerminal = [t]) ∧
      ((ImageDownload.runStream ⟨"u", "i", "p"⟩
          ⟨.ok 10, [.got 4 true true, .done]⟩).events.getLast? = some t)) :=
  ⟨rfl, rfl, claim2_terminal_event ⟨"u", "i", "p"⟩ ⟨.ok 10, [.got 4 true true, .done]⟩ rfl rfl⟩

/-- C3.  If `reqwest::get` fails before any bytes are read (the `Err(_)`
arm of the `Started` state, line 161), the whole run emits exactly
`[Failed(id)]` and the destination file is never created. -/
theorem claim3_network_error (d : ImageDownload) (chunks : List ChunkOutcome) :
    d.runStream ⟨.netErr, chunks⟩
      = { events := [.Failed d.id], file := .absent, panicked := false, blocked := false } :=
  rfl

/-- C4.  When the file write of the current chunk fails (lines 188-194),
the machine deletes the partially written destination file, emits
`Failed(id)` and moves to `Completed`; and when that deletion itself
fails, `.expect("Failed to delete file")` aborts the whole process — the
run panics, leaves the partial file behind, and emits nothing further. -/
theorem claim4_write_failure (id : String) (total downloaded fbytes len : Nat)
    (rest : List ChunkOutcome) :
    runDownloading id total downloaded fbytes (.got len false true :: rest)
      = { events := [.Failed id], file := .absent, panicked := false, blocked := false } ∧
    runDownloading id total downloaded fbytes (.got len false false :: rest)
      = { events := [], file := .present fbytes, panicked := true, blocked := false } :=
  ⟨rfl, rfl⟩

/-- C5.  A chunk read error (the `Err(_)` arm of `response.chunk()`,
line 197) emits `Failed(id)` and moves to `Completed`, leaving the
partially written destination file on disk untouched — no deletion is
attempted on this path, unlike the write-failure path. -/
theorem claim5_read_error (id : String) (total downloaded fbytes : Nat)
    (rest : List ChunkOutcome) :
    runDownloading id total downloaded fbytes (.readErr :: rest)
      = { events := [.Failed id], file := .present fbytes, panicked := false, blocked := false } :=
  rfl

/-- C6.  After every successfully written chunk the emitted `Progress`
percentage is `(downloaded + chunk length) / total * 100` with no
clamping (line 175, modelled in exact arithmetic), and for a body larger
than the advertised total (here 15 bytes against an advertised 10) an
emitted `Progress` value exceeds 100. -/
theorem claim6_progress_formula (id : String) (total downloaded fbytes len : Nat)
    (dOk : Bool) (rest : List ChunkOutcome) :
    (runDownloading id total downloaded fbytes (.got len true dOk :: rest)).events.head?
      = some (.Progress id (((downloaded : ℚ) + (len : ℚ)) / (total : ℚ) * 100)) ∧
    ∃ p : ℚ, 100 < p ∧ DownloadStatus.Progress "img" p ∈
      (ImageDownload.runStream ⟨"u", "img", "f"⟩
        ⟨.ok 10, [.got 15 true true, .done]⟩).events := by
  constructor
  · simp [runDownloading, percent]
  · refine ⟨percent 15 10, by norm_num [percent], ?_⟩
    simp [ImageDownload.runStream, runDownloading]

/-- C7, counterexample.  The claim says `remove_download` on an absent id
leaves the whole manager state — including `finished_downloads` —
unchanged.  But `finished_downloads += 1` runs unconditionally (line 45):
removing `"x"` from the default (empty) manager changes the state,
bumping the counter from 0 to 1. -/
theorem claim7_counterexample :
    DownloadManager.default.remove_download "x" ≠ DownloadManager.default ∧
    (DownloadManager.default.remove_download "x").finished_downloads
      = DownloadManager.default.finished_downloads + 1 := by
  exact ⟨by decide, rfl⟩

/-- C7, amended.  For an id not present in the ledger, `remove_download`
leaves the download map (hence its length) and the concurrency limit
unchanged, but still increments `finished_downloads` by one. -/
theorem claim7_remove_absent (m : DownloadManager) (id : String)
    (h : id ∉ m.downloads.map Prod.fst) :
    (m.remove_download id).downloads = m.downloads ∧
    (m.remove_download id).finished_downloads = m.finished_downloads + 1 ∧
    (m.remove_download id).concurrent_downloads = m.concurrent_downloads := by
  refine ⟨?_, rfl, rfl⟩
  exact swapRemove_of_absent id m.downloads h

/-- Witness for the amended C7 at the default manager and absent id `"x"`. -/
theorem claim7_remove_absent_witness :
    ("x" ∉ DownloadManager.default.downloads.map Prod.fst) ∧
    ((DownloadManager.default.remove_download "x").downloads
        = DownloadManager.default.downloads ∧
    (DownloadManager.default.remove_download "x").finished_downloads
        = DownloadManager.default.finished_downloads + 1 ∧
    (DownloadManager.default.remove_download "x").concurrent_downloads
        = DownloadManager.default.concurrent_downloads) :=
  ⟨by decide, claim7_remove_absent DownloadManager.default "x" (by decide)⟩

/-- C9.  Re-queueing an id already present in the ledger replaces the
stored descriptor but keeps the entry at its original position: the key
sequence of the map is unchanged (`IndexMap::insert` overwrites in
place), and the stored value for that id becomes the new descriptor. -/
theorem claim9_requeue_in_place (m : DownloadManager) (u2 id p2 : String)
    (h : id ∈ m.downloads.map Prod.fst) :
    (m.queue_download u2 id p2).downloads.map Prod.fst = m.downloads.map Prod.fst ∧
    getEntry id (m.queue_download u2 id p2).downloads = some ⟨u2, id, p2⟩ :=
  ⟨insertIndexMap_keys id ⟨u2, id, p2⟩ m.downloads h,
   getEntry_insertIndexMap id ⟨u2, id, p2⟩ m.downloads⟩

/-- Witness for C9: re-queue id `"a"` (queued first among two) with a new
url and path; its key keeps position 0 and its descriptor is replaced. -/
theorem claim9_requeue_in_place_witness :
    ("a" ∈ ((DownloadManager.default.queue_download "u1" "a" "p1").queue_download
        "ub" "b" "pb").downloads.map Prod.fst) ∧
    ((((DownloadManager.default.queue_download "u1" "a" "p1").queue_download
        "ub" "b" "pb").queue_download "u2" "a" "p2").downloads.map Prod.fst
      = ((DownloadManager.default.queue_download "u1" "a" "p1").queue_download
        "ub" "b" "pb").downloads.map Prod.fst ∧
    getEntry "a" (((DownloadManager.default.queue_download "u1" "a" "p1").queue_download
        "ub" "b" "pb").queue_download "u2" "a" "p2").downloads = some ⟨"u2", "a", "p2"⟩) :=
  ⟨by decide, claim9_requeue_in_place
    ((DownloadManager.default.queue_download "u1" "a" "p1").queue_download "ub" "b" "pb")
    "u2" "a" "p2" (by decide)⟩

/-- C10.  `set_concurrent_downloads` stores any value, including 0, with
no validation; and once the limit is 0, `get_subscriptions` is empty after
every further sequence of queue/remove calls — no queued download is ever
admitted until the limit is raised. -/
theorem claim10_zero_limit (m : DownloadManager) (ops : List LedgerOp) (n : Nat) :
    (applyOps (m.set_concurrent_downloads 0) ops).get_subscriptions = [] ∧
    (m.set_concurrent_downloads n).concurrent_downloads = n := by
  constructor
  · have hc := applyOps_concurrent (m.set_concurrent_downloads 0) ops
    unfold DownloadManager.get_subscriptions
    rw [hc]
    rfl
  · rfl

end Wallabunga
